import Mathlib

/-!
Shallow embedding of the TRENTO collision sampler (`src/collider.cxx`).

The collider core consists of:

* two pure run-parameter derivations, `determine_bmax` and `determine_asym`,
  executed at construction time;
* the `Collider` constructor, which draws the nucleus deformation parameters
  `gamma` and `beta2` for each nucleus from the process-wide random engine
  and only afterwards (in the constructor body) applies the configured seed;
* `run_events`, the event-loop driver;
* `sample_collision`, the rejection-sampling loop over impact-parameter
  trials with the nested nucleon-pair sweep.

C++ `double` values are modelled as real numbers.  The random engine and the
external collaborators (`Nucleus`, `NucleonCommon`) are modelled abstractly:
for the per-call analysis of `sample_collision` each trial's inputs (the
canonical draw `u` and the two freshly sampled nucleon lists) are given as a
trace of `TrialData` records; for whole-run properties the engine is an
explicit state threaded through a collaborator record `Collab`.
-/

namespace Trento

/-- One trial's external inputs inside `Collider::sample_collision`: the
canonical uniform draw `u` used for the impact parameter, and the nucleon
lists produced by `nucleusA_->sample_nucleons` / `nucleusB_->sample_nucleons`
for this trial. -/
structure TrialData (α β : Type) where
  u : ℝ
  nucleonsA : List α
  nucleonsB : List β

/-- `b = std::sqrt(bmin_*bmin_ + (bmax_*bmax_ - bmin_*bmin_) * u)`
(collider.cxx line 128). -/
noncomputable def sample_b (bmin bmax u : ℝ) : ℝ :=
  Real.sqrt (bmin * bmin + (bmax * bmax - bmin * bmin) * u)

/-- Body of the inner pair loop (collider.cxx lines 137-139): evaluate
`participate`, increment `ncoll` when the flag is set, OR into `collision`. -/
def pairStep {α β : Type} (participate : α → β → Bool) (calcNcoll : Bool)
    (a : α) (st : ℤ × Bool) (b : β) : ℤ × Bool :=
  let newCollision := participate a b
  (if newCollision && calcNcoll then st.1 + 1 else st.1, newCollision || st.2)

/-- The nested `for (A in *nucleusA_) for (B in *nucleusB_)` sweep
(collider.cxx lines 135-141), folding the `(ncoll, collision)` state over
every ordered pair of the Cartesian product. -/
def pairLoop {α β : Type} (participate : α → β → Bool) (calcNcoll : Bool)
    (As : List α) (Bs : List β) (st : ℤ × Bool) : ℤ × Bool :=
  As.foldl (fun st a => Bs.foldl (pairStep participate calcNcoll a) st) st

/-- Number of participating pairs of one trial (the amount `ncoll` grows by
during one full pair sweep when counting is enabled). -/
def collPairs {α β : Type} (participate : α → β → Bool)
    (t : TrialData α β) : ℕ :=
  (t.nucleonsA.map (fun a => t.nucleonsB.countP (fun b => participate a b))).sum

/-- Whether some pair of one trial participates: the logical OR over all
pairs, i.e. the value `collision` holds after a full sweep that started
from `false`. -/
def anyPair {α β : Type} (participate : α → β → Bool)
    (t : TrialData α β) : Bool :=
  t.nucleonsA.any (fun a => t.nucleonsB.any (fun b => participate a b))

/-- The do-while rejection loop of `Collider::sample_collision`
(collider.cxx lines 126-143), consuming the trace of trial inputs in order.
`ncoll`, `nToCollide` and `collision` are the loop-carried variables; the
loop exits the first time `collision` is true after a full pair sweep.
`none` means the trace was exhausted without an accepted trial (the C++
loop would keep running). -/
noncomputable def sampleCollisionAux {α β : Type} (participate : α → β → Bool)
    (calcNcoll calcToColl : Bool) (bmin bmax : ℝ) :
    List (TrialData α β) → ℤ → ℤ → Bool → Option (ℝ × ℤ × ℤ)
  | [], _, _, _ => none
  | t :: rest, ncoll, nToCollide, collision =>
    let b := sample_b bmin bmax t.u
    let res := pairLoop participate calcNcoll t.nucleonsA t.nucleonsB
      (ncoll, collision)
    let nToCollide' := if calcToColl then nToCollide + 1 else nToCollide
    if res.2 then some (b, res.1, nToCollide')
    else sampleCollisionAux participate calcNcoll calcToColl bmin bmax rest
      res.1 nToCollide' res.2

/-- `Collider::sample_collision` (collider.cxx lines 116-146): starts from
`ncoll = 0`, `nToCollide = 0`, `collision = false` and returns the tuple
`(b, ncoll, nToCollide)` of the accepted trial. -/
noncomputable def sampleCollision {α β : Type} (participate : α → β → Bool)
    (calcNcoll calcToColl : Bool) (bmin bmax : ℝ)
    (trials : List (TrialData α β)) : Option (ℝ × ℤ × ℤ) :=
  sampleCollisionAux participate calcNcoll calcToColl bmin bmax trials 0 0 false

/-- `determine_bmax` (collider.cxx lines 50-56): use the configured value
unless it is negative, in which case fall back to
`A.radius() + B.radius() + nc.max_impact()`. -/
noncomputable def determine_bmax (bmaxConfig rA rB maxImpact : ℝ) : ℝ :=
  if bmaxConfig < 0 then rA + rB + maxImpact else bmaxConfig

/-- `determine_asym` (collider.cxx lines 61-69): `rA/(rA+rB)`, falling back
to `0.5` when the summed radius is below the threshold `0.1`. -/
noncomputable def determine_asym (rA rB : ℝ) : ℝ :=
  if rA + rB < 0.1 then 0.5 else rA / (rA + rB)

/-- The external collaborators of the collider, for whole-run modelling:
the process-wide random engine (state type `E`, mutated by every draw),
`Nucleus` (type `N`, nucleons of type `P`) and `NucleonCommon`.
`drawNormal mean std` models `std::normal_distribution<double>(mean, std)`
applied to the engine; `seedEngine` models `random::engine.seed(s)`;
`createNucleus index gamma beta2` models `Nucleus::create` for projectile
`index` (the remaining configuration values it reads are constants folded
into the collaborator); `participate` is deterministic in the nucleon pair,
as the external-interface contract states. -/
structure Collab (E N P : Type) where
  drawNormal : ℝ → ℝ → E → ℝ × E
  seedEngine : ℤ → E
  createNucleus : ℕ → ℝ → ℝ → N
  radius : N → ℝ
  maxImpact : ℝ
  sampleNucleons : N → ℝ → E → List P × E
  participate : P → P → Bool
  canonical : E → ℝ × E

/-- The configuration values the `Collider` constructor reads from the
variable map (collider.cxx lines 75-92): the normal-distribution parameters
for `gamma` and `beta2`, the event count, the two tracking flags, `b-min`,
`b-max` and `random-seed`. -/
structure Config where
  gammaMean : ℝ
  gammaStd : ℝ
  beta2Mean : ℝ
  beta2Std : ℝ
  nevents : ℤ
  calcNcoll : Bool
  calcToColl : Bool
  bminCfg : ℝ
  bmaxCfg : ℝ
  seed : ℤ

/-- The member state a constructed `Collider` holds. -/
structure ColliderState (N : Type) where
  nucleusA : N
  nucleusB : N
  nevents : ℤ
  calcNcoll : Bool
  calcToColl : Bool
  bmin : ℝ
  bmax : ℝ
  asym : ℝ

/-- The `Collider` constructor (collider.cxx lines 75-92).  The member
initializer list runs first: `create_nucleus` for A draws `gamma` then
`beta2` from the engine (collider.cxx lines 38-42), then the same for B,
then `bmax` and the asymmetry are derived from the radii.  Only afterwards,
in the constructor body, is the engine seeded when the configured seed is
positive.  No configuration value is validated anywhere. -/
noncomputable def mkCollider {E N P : Type} (C : Collab E N P) (cfg : Config)
    (e0 : E) : ColliderState N × E :=
  let r1 := C.drawNormal cfg.gammaMean cfg.gammaStd e0
  let r2 := C.drawNormal cfg.beta2Mean cfg.beta2Std r1.2
  let nA := C.createNucleus 0 r1.1 r2.1
  let r3 := C.drawNormal cfg.gammaMean cfg.gammaStd r2.2
  let r4 := C.drawNormal cfg.beta2Mean cfg.beta2Std r3.2
  let nB := C.createNucleus 1 r3.1 r4.1
  let bmax := determine_bmax cfg.bmaxCfg (C.radius nA) (C.radius nB) C.maxImpact
  let asym := determine_asym (C.radius nA) (C.radius nB)
  let e := if cfg.seed > 0 then C.seedEngine cfg.seed else r4.2
  (⟨nA, nB, cfg.nevents, cfg.calcNcoll, cfg.calcToColl, cfg.bminCfg, bmax, asym⟩, e)

/-- `Collider::sample_collision` in generative form: the trial inputs are
produced by the collaborators from the threaded engine state instead of
being given as a trace.  `fuel` bounds the number of rejection-loop
iterations the model is willing to unfold; `none` means the bound was
reached (the C++ loop would still be running). -/
noncomputable def sampleCollisionRun {E N P : Type} (C : Collab E N P)
    (st : ColliderState N) : ℕ → E → ℤ → ℤ → Bool → Option ((ℝ × ℤ × ℤ) × E)
  | 0, _, _, _, _ => none
  | fuel + 1, e, ncoll, nToCollide, collision =>
    let r0 := C.canonical e
    let b := sample_b st.bmin st.bmax r0.1
    let rA := C.sampleNucleons st.nucleusA (st.asym * b) r0.2
    let rB := C.sampleNucleons st.nucleusB ((st.asym - 1) * b) rA.2
    let res := pairLoop C.participate st.calcNcoll rA.1 rB.1 (ncoll, collision)
    let nToCollide' := if st.calcToColl then nToCollide + 1 else nToCollide
    if res.2 then some ((b, res.1, nToCollide'), rB.2)
    else sampleCollisionRun C st fuel rB.2 res.1 nToCollide' res.2

/-- The event loop of `Collider::run_events` (collider.cxx lines 97-114),
recursing on the number of remaining events and collecting the
`(b, ncoll, nToCollide)` tuples handed to the output sink, in order. -/
noncomputable def runEventsAux {E N P : Type} (C : Collab E N P)
    (st : ColliderState N) (fuel : ℕ) :
    ℕ → E → Option (List (ℝ × ℤ × ℤ) × E)
  | 0, e => some ([], e)
  | n + 1, e =>
    match sampleCollisionRun C st fuel e 0 0 false with
    | none => none
    | some (r, e1) =>
      match runEventsAux C st fuel n e1 with
      | none => none
      | some (rs, e2) => some (r :: rs, e2)

/-- `Collider::run_events`: the loop `for (int n = 0; n < nevents_; ++n)`
executes `max(nevents_, 0)` iterations, i.e. `nevents_.toNat` of them. -/
noncomputable def runEvents {E N P : Type} (C : Collab E N P)
    (st : ColliderState N) (fuel : ℕ) (e : E) :
    Option (List (ℝ × ℤ × ℤ) × E) :=
  runEventsAux C st fuel st.nevents.toNat e

/-- A whole run: construct the `Collider` from the startup engine state
`e0`, then run the event loop; the result is the sequence of
`(b, ncoll, nToCollide)` tuples emitted to the output sink. -/
noncomputable def fullRun {E N P : Type} (C : Collab E N P) (cfg : Config)
    (fuel : ℕ) (e0 : E) : Option (List (ℝ × ℤ × ℤ)) :=
  let r := mkCollider C cfg e0
  Option.map Prod.fst (runEvents C r.1 fuel r.2)

/-- A degenerate collaborator instantiation: point-like nuclei with no
nucleons and an interaction model that never fires.  Used to exercise the
constructor and the event loop on concrete configurations. -/
noncomputable def trivialModel : Collab ℤ ℕ ℕ where
  drawNormal := fun mean _ e => (mean, e)
  seedEngine := fun _ => 0
  createNucleus := fun _ _ _ => 0
  radius := fun _ => 0
  maxImpact := 0
  sampleNucleons := fun _ _ e => ([], e)
  participate := fun _ _ => false
  canonical := fun e => (0, e)

/-- A configuration that is invalid according to the specification's
error-handling section: `bmin = 5` exceeds the configured `bmax = 1`, and
the event count is negative. -/
noncomputable def invalidConfig : Config :=
  ⟨0, 0, 0, 0, -3, false, false, 5, 1, 0⟩

/-- A collaborator instantiation whose nucleus genuinely depends on the
`gamma` value drawn in the constructor, as the physical nucleus does on its
deformation parameters: a nucleus built from `gamma = 0` holds one nucleon,
any other nucleus holds two, and every pair participates.  The engine state
is an integer counter; `drawNormal` reveals it and advances it, `seedEngine`
and `canonical` are deterministic. -/
noncomputable def gammaSensitiveModel : Collab ℤ ℕ ℕ where
  drawNormal := fun _ _ e => ((e : ℝ), e + 1)
  seedEngine := fun _ => 0
  createNucleus := fun _ gamma _ => if gamma = 0 then 1 else 2
  radius := fun _ => 0
  maxImpact := 0
  sampleNucleons := fun n _ e => (List.replicate n 0, e)
  participate := fun _ _ => true
  canonical := fun e => (0, e)

/-- A configuration with an explicit positive random seed, one event, and
both tracking flags enabled. -/
noncomputable def seededConfig : Config :=
  ⟨0, 0, 0, 0, 1, true, true, 0, 0, 1⟩

/-- A concrete collider state with a negative event count. -/
noncomputable def negativeEventState : ColliderState ℕ :=
  ⟨0, 0, -1, false, false, 0, 0, 0⟩

end Trento

namespace Trento

/-- C2: every impact parameter computed by `sample_b` from `0 ≤ bmin ≤ bmax`
and a canonical draw `u ∈ [0,1)` lies in `[bmin, bmax]`. -/
theorem sample_b_mem_range (bmin bmax u : ℝ) (hb0 : 0 ≤ bmin)
    (hbb : bmin ≤ bmax) (hu0 : 0 ≤ u) (hu1 : u < 1) :
    bmin ≤ sample_b bmin bmax u ∧ sample_b bmin bmax u ≤ bmax := by
  have hd : 0 ≤ bmax * bmax - bmin * bmin := by nlinarith
  have hlo : bmin * bmin ≤ bmin * bmin + (bmax * bmax - bmin * bmin) * u := by
    nlinarith
  have hhi : bmin * bmin + (bmax * bmax - bmin * bmin) * u ≤ bmax * bmax := by
    nlinarith
  have e1 : Real.sqrt (bmin * bmin) = bmin := by
    rw [show bmin * bmin = bmin ^ 2 by ring, Real.sqrt_sq hb0]
  have e2 : Real.sqrt (bmax * bmax) = bmax := by
    rw [show bmax * bmax = bmax ^ 2 by ring, Real.sqrt_sq (le_trans hb0 hbb)]
  constructor
  · have h1 := Real.sqrt_le_sqrt hlo
    rw [e1] at h1
    exact h1
  · have h2 := Real.sqrt_le_sqrt hhi
    rw [e2] at h2
    exact h2

/-- C2 witness at `bmin = 0`, `bmax = 1`, `u = 0`. -/
theorem sample_b_mem_range_instance :
    0 ≤ sample_b 0 1 0 ∧ sample_b 0 1 0 ≤ 1 :=
  sample_b_mem_range 0 1 0 (by norm_num) (by norm_num) (by norm_num)
    (by norm_num)

/-- C3: `determine_bmax` returns the configured value verbatim when it is
non-negative, returns `rA + rB + maxImpact` when it is negative, and in
particular derives exactly `3` from radii `1.2`, `1.2` and maximum
interaction distance `0.6` with a negative configured value. -/
theorem determine_bmax_spec (c rA rB m : ℝ) :
    (0 ≤ c → determine_bmax c rA rB m = c) ∧
    (c < 0 → determine_bmax c rA rB m = rA + rB + m) ∧
    determine_bmax (-1) 1.2 1.2 0.6 = 3 := by
  refine ⟨fun h => ?_, fun h => ?_, ?_⟩
  · rw [determine_bmax, if_neg (not_lt.mpr h)]
  · rw [determine_bmax, if_pos h]
  · rw [determine_bmax, if_pos (by norm_num)]; norm_num

/-- C3 witness: both branches at concrete inputs. -/
theorem determine_bmax_spec_instance :
    determine_bmax 2 0 0 0 = 2 ∧ determine_bmax (-1) 1 1 1 = 3 ∧
    determine_bmax (-1) 1.2 1.2 0.6 = 3 :=
  ⟨(determine_bmax_spec 2 0 0 0).1 (by norm_num),
    by rw [(determine_bmax_spec (-1) 1 1 1).2.1 (by norm_num)]; norm_num,
    (determine_bmax_spec 0 0 0 0).2.2⟩

/-- C4: `determine_asym` returns `rA/(rA+rB)` when the summed radius is at
or above the threshold `0.1` and exactly `0.5` below it; in particular it
returns `0.5` for radii `0, 0` and `2/3` for radii `2, 1`. -/
theorem determine_asym_spec (rA rB : ℝ) :
    (0.1 ≤ rA + rB → determine_asym rA rB = rA / (rA + rB)) ∧
    (rA + rB < 0.1 → determine_asym rA rB = 0.5) ∧
    determine_asym 0 0 = 0.5 ∧ determine_asym 2 1 = 2 / 3 := by
  refine ⟨fun h => ?_, fun h => ?_, ?_, ?_⟩
  · rw [determine_asym, if_neg (not_lt.mpr h)]
  · rw [determine_asym, if_pos h]
  · rw [determine_asym, if_pos (by norm_num)]
  · rw [determine_asym, if_neg (by norm_num)]; norm_num

/-- C4 witness: both branches at concrete inputs. -/
theorem determine_asym_spec_instance :
    determine_asym 2 1 = 2 / 3 ∧ determine_asym 0 0 = 0.5 :=
  ⟨by rw [(determine_asym_spec 2 1).1 (by norm_num)]; norm_num,
    (determine_asym_spec 0 0).2.1 (by norm_num)⟩

/-- The inner `for (B in *nucleusB_)` loop adds the number of participating
partners of `a` (when counting is enabled) and ORs their participation
bits into `collision`. -/
lemma pairStep_foldl {α β : Type} (p : α → β → Bool) (cN : Bool) (a : α) :
    ∀ (Bs : List β) (n : ℤ) (c : Bool),
      Bs.foldl (pairStep p cN a) (n, c) =
        (n + if cN then (Bs.countP (fun b => p a b) : ℤ) else 0,
          c || Bs.any (fun b => p a b)) := by
  intro Bs
  induction Bs with
  | nil => intro n c; simp [pairStep]
  | cons b bs ih =>
    intro n c
    rw [List.foldl_cons, pairStep, ih]
    cases hp : p a b <;> cases cN <;> cases c <;>
      simp [List.countP_cons, hp] <;> push_cast <;> ring

/-- The full nested pair sweep: `ncoll` grows by the total number of
participating pairs of the Cartesian product (when counting is enabled) and
`collision` ends up as the OR of the incoming value with the participation
bit of every pair. -/
lemma pairLoop_characterization {α β : Type} (p : α → β → Bool) (cN : Bool) :
    ∀ (As : List α) (Bs : List β) (n : ℤ) (c : Bool),
      pairLoop p cN As Bs (n, c) =
        (n + if cN then
            ((As.map (fun a => Bs.countP (fun b => p a b))).sum : ℤ) else 0,
          c || As.any (fun a => Bs.any (fun b => p a b))) := by
  intro As
  induction As with
  | nil => intro Bs n c; simp [pairLoop]
  | cons a as ih =>
    intro Bs n c
    rw [pairLoop, List.foldl_cons, pairStep_foldl]
    have h2 := ih Bs (n + if cN then (Bs.countP (fun b => p a b) : ℤ) else 0)
      (c || Bs.any (fun b => p a b))
    rw [pairLoop] at h2
    rw [h2]
    cases cN <;> cases c <;> simp [Bool.or_assoc] <;> push_cast <;> ring

/-- The pair sweep of one trial, in terms of `collPairs` and `anyPair`. -/
lemma pairLoop_trial {α β : Type} (p : α → β → Bool) (cN : Bool)
    (t : TrialData α β) (n : ℤ) (c : Bool) :
    pairLoop p cN t.nucleonsA t.nucleonsB (n, c) =
      (n + if cN then (collPairs p t : ℤ) else 0, c || anyPair p t) :=
  pairLoop_characterization p cN t.nucleonsA t.nucleonsB n c

/-- A trial with a participating pair contributes at least one binary
collision. -/
lemma one_le_collPairs {α β : Type} (p : α → β → Bool) (t : TrialData α β)
    (h : anyPair p t = true) : 1 ≤ collPairs p t := by
  unfold anyPair at h
  rw [List.any_eq_true] at h
  obtain ⟨a, ha, hb⟩ := h
  rw [List.any_eq_true] at hb
  obtain ⟨b, hbmem, hp⟩ := hb
  have h1 : 0 < t.nucleonsB.countP (fun b => p a b) :=
    List.countP_pos_iff.mpr ⟨b, hbmem, hp⟩
  have h2 : t.nucleonsB.countP (fun b => p a b) ≤ collPairs p t := by
    unfold collPairs
    exact List.single_le_sum (fun x _ => Nat.zero_le x) _
      (List.mem_map_of_mem _ ha)
  omega

/-- The rejection loop on a trace whose first trial with a participating
pair is `t`, preceded by the rejected trials `pre`: the loop accepts `t`,
returns its impact parameter, accumulates the participating pairs of all
processed trials (rejected ones included) into `ncoll`, and counts one
loop iteration per processed trial. -/
lemma sampleCollisionAux_accepts {α β : Type} (p : α → β → Bool)
    (cN cT : Bool) (bmin bmax : ℝ) :
    ∀ (pre : List (TrialData α β)) (t : TrialData α β)
      (post : List (TrialData α β)) (ncoll nTC : ℤ),
      (∀ s ∈ pre, anyPair p s = false) → anyPair p t = true →
      sampleCollisionAux p cN cT bmin bmax (pre ++ t :: post) ncoll nTC false =
        some (sample_b bmin bmax t.u,
          ncoll + (if cN then
            ((pre.map (collPairs p)).sum : ℤ) + (collPairs p t : ℤ) else 0),
          nTC + (if cT then (pre.length : ℤ) + 1 else 0)) := by
  intro pre
  induction pre with
  | nil =>
    intro t post ncoll nTC _ ht
    rw [List.nil_append, sampleCollisionAux]
    simp only [pairLoop_trial, ht, Bool.or_true]
    cases cN <;> cases cT <;> simp
  | cons s pre ih =>
    intro t post ncoll nTC hpre ht
    have hs : anyPair p s = false := hpre s (List.mem_cons_self s pre)
    rw [List.cons_append, sampleCollisionAux]
    simp only [pairLoop_trial, hs, Bool.or_false]
    rw [ih t post _ _ (fun x hx => hpre x (List.mem_cons_of_mem s hx)) ht]
    cases cN <;> cases cT <;>
      simp [List.length_cons] <;> push_cast <;> ring_nf <;>
      simp [add_assoc, add_comm, add_left_comm]

/-- C1: on every trial the full Cartesian product of nucleon pairs is swept
with no early exit — the OR over all pairs decides acceptance and, with
ncoll tracking enabled, the returned `ncoll` is the total number of
participating pairs accumulated across all processed trials, the rejected
ones (whose impact parameters and nucleon positions are discarded)
included. -/
theorem sample_collision_pair_sweep_total {α β : Type} (p : α → β → Bool)
    (cT : Bool) (bmin bmax : ℝ) (pre : List (TrialData α β))
    (t : TrialData α β) (post : List (TrialData α β))
    (hpre : ∀ s ∈ pre, anyPair p s = false) (ht : anyPair p t = true) :
    (∀ (As : List α) (Bs : List β) (n : ℤ) (c : Bool),
        (pairLoop p true As Bs (n, c)).2 =
          (c || As.any (fun a => Bs.any (fun b => p a b)))) ∧
    sampleCollision p true cT bmin bmax (pre ++ t :: post) =
      some (sample_b bmin bmax t.u,
        ((pre.map (collPairs p)).sum : ℤ) + (collPairs p t : ℤ),
        if cT then (pre.length : ℤ) + 1 else 0) := by
  constructor
  · intro As Bs n c
    rw [pairLoop_characterization]
  · rw [sampleCollision,
      sampleCollisionAux_accepts p true cT bmin bmax pre t post 0 0 hpre ht]
    cases cT <;> simp

/-- C1 witness: trace with one rejected trial (nucleons `[0]` against `[1]`,
no participating pair for equality-participation) followed by an accepted
trial (`[1,2]` against `[2]`, one participating pair). -/
theorem sample_collision_pair_sweep_total_instance :
    sampleCollision (fun a b : ℕ => a == b) true true 0 1
        ([⟨0, [0], [1]⟩] ++ (⟨0, [1, 2], [2]⟩ : TrialData ℕ ℕ) :: []) =
      some (sample_b 0 1 (0 : ℝ),
        ((([⟨0, [0], [1]⟩] : List (TrialData ℕ ℕ)).map
          (collPairs (fun a b : ℕ => a == b))).sum : ℤ) +
          (collPairs (fun a b : ℕ => a == b) ⟨0, [1, 2], [2]⟩ : ℤ),
        if true then ((([⟨0, [0], [1]⟩] :
          List (TrialData ℕ ℕ)).length : ℤ) + 1) else 0) :=
  (sample_collision_pair_sweep_total (fun a b : ℕ => a == b) true 0 1
    [⟨0, [0], [1]⟩] ⟨0, [1, 2], [2]⟩ [] (by decide) (by decide)).2

/-- C5: when the very first pair of the first trial participates, the
rejection loop accepts that trial and returns after exactly one iteration,
independently of any further trial inputs, with a trial count of `1` when
trial tracking is enabled and at least one binary collision counted. -/
theorem sample_collision_first_pair_hit {α β : Type} (p : α → β → Bool)
    (cN cT : Bool) (bmin bmax : ℝ) (t : TrialData α β)
    (rest : List (TrialData α β)) (a : α) (as : List α) (b : β) (bs : List β)
    (hA : t.nucleonsA = a :: as) (hB : t.nucleonsB = b :: bs)
    (hp : p a b = true) :
    sampleCollision p cN cT bmin bmax (t :: rest) =
      some (sample_b bmin bmax t.u, if cN then (collPairs p t : ℤ) else 0,
        if cT then 1 else 0) ∧ 1 ≤ collPairs p t := by
  have ht : anyPair p t = true := by
    unfold anyPair
    rw [hA, hB]
    simp [hp]
  have h1 := sampleCollisionAux_accepts p cN cT bmin bmax [] t rest 0 0
    (by simp) ht
  rw [List.nil_append] at h1
  constructor
  · rw [sampleCollision, h1]
    cases cN <;> cases cT <;> simp
  · exact one_le_collPairs p t ht

/-- C5 witness: a one-nucleon-each first trial whose single pair
participates, followed by a further (ignored) trial. -/
theorem sample_collision_first_pair_hit_instance :
    sampleCollision (fun a b : ℕ => a == b) true true 0 1
        ((⟨0, [7], [7]⟩ : TrialData ℕ ℕ) :: [⟨0, [], []⟩]) =
      some (sample_b 0 1 (0 : ℝ),
        if true then (collPairs (fun a b : ℕ => a == b) ⟨0, [7], [7]⟩ : ℤ)
        else 0,
        if true then 1 else 0) ∧
      1 ≤ collPairs (fun a b : ℕ => a == b) ⟨0, [7], [7]⟩ :=
  sample_collision_first_pair_hit (fun a b : ℕ => a == b) true true 0 1
    ⟨0, [7], [7]⟩ [⟨0, [], []⟩] 7 [] 7 [] rfl rfl (by decide)

/-- The loop-carried counters only move when their tracking flag is set:
whatever accumulator values the rejection loop starts from, they are
returned unchanged when the corresponding flag is disabled. -/
lemma sampleCollisionAux_flags {α β : Type} (p : α → β → Bool)
    (cN cT : Bool) (bmin bmax : ℝ) :
    ∀ (trials : List (TrialData α β)) (n0 nt0 : ℤ) (c0 : Bool) (b : ℝ)
      (nc nt : ℤ),
      sampleCollisionAux p cN cT bmin bmax trials n0 nt0 c0 =
        some (b, nc, nt) →
      (cN = false → nc = n0) ∧ (cT = false → nt = nt0) := by
  intro trials
  induction trials with
  | nil =>
    intro n0 nt0 c0 b nc nt h
    rw [sampleCollisionAux] at h
    exact absurd h (by simp)
  | cons t rest ih =>
    intro n0 nt0 c0 b nc nt h
    rw [sampleCollisionAux] at h
    simp only [pairLoop_trial] at h
    by_cases hcol : (c0 || anyPair p t) = true
    · rw [if_pos hcol] at h
      injection h with h1
      injection h1 with hb h2
      injection h2 with hnc hnt
      constructor
      · intro hN
        rw [← hnc, hN]
        simp
      · intro hT
        rw [← hnt, hT]
        simp
    · rw [if_neg hcol] at h
      have := ih _ _ _ _ _ _ h
      constructor
      · intro hN
        rw [(this.1 hN), hN]
        simp
      · intro hT
        rw [(this.2 hT), hT]
        simp

/-- C6: the two tracking flags are independent — whenever the sampler
returns, a disabled ncoll flag forces the returned `ncoll` to `0` no matter
how many pairs participated, and a disabled trial flag forces the returned
trial count to `0` no matter how many loop iterations ran; the values are
present as zeros, not omitted. -/
theorem sample_collision_flag_independence {α β : Type} (p : α → β → Bool)
    (cN cT : Bool) (bmin bmax : ℝ) (trials : List (TrialData α β)) (b : ℝ)
    (nc nt : ℤ)
    (h : sampleCollision p cN cT bmin bmax trials = some (b, nc, nt)) :
    (cN = false → nc = 0) ∧ (cT = false → nt = 0) :=
  sampleCollisionAux_flags p cN cT bmin bmax trials 0 0 false b nc nt h

/-- C6 witness: both flags disabled on a trace whose first trial collides
on several pairs and which takes one iteration; the returned tuple is
`(b, 0, 0)`. -/
theorem sample_collision_flag_independence_instance :
    (false = false → (0 : ℤ) = 0) ∧ (false = false → (0 : ℤ) = 0) :=
  sample_collision_flag_independence (fun _ _ : Unit => true) false false
    0 1 [⟨0, [(), ()], [()]⟩] (sample_b 0 1 (0 : ℝ)) 0 0
    (by rw [sampleCollision, sampleCollisionAux]
        simp [pairLoop, pairStep])

/-- Starting from any accumulator values, a successful run of the rejection
loop strictly increases each tracked counter: the accepting trial has a
participating pair and the loop body ran at least once. -/
lemma sampleCollisionAux_tracked_pos {α β : Type} (p : α → β → Bool)
    (cN cT : Bool) (bmin bmax : ℝ) :
    ∀ (trials : List (TrialData α β)) (n0 nt0 : ℤ) (b : ℝ) (nc nt : ℤ),
      sampleCollisionAux p cN cT bmin bmax trials n0 nt0 false =
        some (b, nc, nt) →
      (cN = true → n0 + 1 ≤ nc) ∧ (cT = true → nt0 + 1 ≤ nt) := by
  intro trials
  induction trials with
  | nil =>
    intro n0 nt0 b nc nt h
    rw [sampleCollisionAux] at h
    exact absurd h (by simp)
  | cons t rest ih =>
    intro n0 nt0 b nc nt h
    rw [sampleCollisionAux] at h
    simp only [pairLoop_trial, Bool.false_or] at h
    by_cases hcol : anyPair p t = true
    · rw [if_pos hcol] at h
      injection h with h1
      injection h1 with hb h2
      injection h2 with hnc hnt
      have hcp := one_le_collPairs p t hcol
      constructor
      · intro hN
        rw [← hnc, hN]
        simp only [if_true]
        have : (1 : ℤ) ≤ (collPairs p t : ℤ) := by exact_mod_cast hcp
        omega
      · intro hT
        rw [← hnt, hT]
        simp only [if_true]
        omega
    · rw [if_neg (by simpa using hcol)] at h
      rw [show anyPair p t = false by simpa using hcol] at h
      have := ih _ _ _ _ _ h
      constructor
      · intro hN
        have h1 := this.1 hN
        rw [hN] at h1
        simp only [if_true] at h1
        have : (0 : ℤ) ≤ (collPairs p t : ℤ) := by positivity
        omega
      · intro hT
        have h1 := this.2 hT
        rw [hT] at h1
        simp only [if_true] at h1
        omega

/-- C9: whenever the sampler returns, each tracked counter is strictly
positive — `ncoll ≥ 1` when ncoll tracking is enabled (the accepting trial
has at least one participating pair) and the trial count is `≥ 1` when
trial tracking is enabled (the do-while body ran at least once) — so a
tracked counter of `0` never reaches the public interface. -/
theorem sample_collision_tracked_counters_pos {α β : Type}
    (p : α → β → Bool) (cN cT : Bool) (bmin bmax : ℝ)
    (trials : List (TrialData α β)) (b : ℝ) (nc nt : ℤ)
    (h : sampleCollision p cN cT bmin bmax trials = some (b, nc, nt)) :
    (cN = true → 1 ≤ nc) ∧ (cT = true → 1 ≤ nt) := by
  have h1 := sampleCollisionAux_tracked_pos p cN cT bmin bmax trials 0 0
    b nc nt h
  constructor
  · intro hN
    have := h1.1 hN
    omega
  · intro hT
    have := h1.2 hT
    omega

/-- C9 witness: both flags enabled on a trace accepted at the first trial
with one participating pair; the returned counters are `(1, 1)`. -/
theorem sample_collision_tracked_counters_pos_instance :
    (true = true → (1 : ℤ) ≤ 1) ∧ (true = true → (1 : ℤ) ≤ 1) :=
  sample_collision_tracked_counters_pos (fun _ _ : Unit => true) true true
    0 1 [⟨0, [()], [()]⟩] (sample_b 0 1 (0 : ℝ)) 1 1
    (by rw [sampleCollision, sampleCollisionAux]
        simp [pairLoop, pairStep])

/-- C10: a zero or negative configured event count makes `run_events`
perform zero loop iterations and return normally — no event is sampled,
nothing reaches the output sink, the engine state is untouched and no
error is raised. -/
theorem run_events_nonpositive_count {E N P : Type} (C : Collab E N P)
    (st : ColliderState N) (fuel : ℕ) (e : E) (h : st.nevents ≤ 0) :
    runEvents C st fuel e = some ([], e) := by
  rw [runEvents, Int.toNat_of_nonpos h, runEventsAux]

/-- C10 witness: event count `-1` on the degenerate model. -/
theorem run_events_nonpositive_count_instance :
    negativeEventState.nevents ≤ 0 ∧
    runEvents trivialModel negativeEventState 5 (0 : ℤ) = some ([], 0) :=
  ⟨by decide,
    run_events_nonpositive_count trivialModel negativeEventState 5 0
      (by decide)⟩

/-- C7 amended: the `Collider` constructor performs no validation — the
configured `bmin` and event count are stored verbatim (a `bmax` below
`bmin` or a negative event count is accepted), and a non-positive event
count simply makes the event loop return normally after zero
iterations. -/
theorem collider_ctor_no_validation {E N P : Type} (C : Collab E N P)
    (cfg : Config) (e0 : E) (fuel : ℕ) :
    (mkCollider C cfg e0).1.bmin = cfg.bminCfg ∧
    (mkCollider C cfg e0).1.nevents = cfg.nevents ∧
    (cfg.nevents ≤ 0 →
      runEvents C (mkCollider C cfg e0).1 fuel (mkCollider C cfg e0).2 =
        some ([], (mkCollider C cfg e0).2)) := by
  refine ⟨rfl, rfl, fun h => ?_⟩
  have hn : (mkCollider C cfg e0).1.nevents = cfg.nevents := rfl
  rw [runEvents, hn, Int.toNat_of_nonpos h, runEventsAux]

/-- C7 amended witness: the invalid configuration (`bmin = 5` above the
configured `bmax = 1`, event count `-3`) is accepted and the run returns
normally and empty. -/
theorem collider_ctor_no_validation_instance :
    invalidConfig.nevents ≤ 0 ∧
    runEvents trivialModel (mkCollider trivialModel invalidConfig 0).1 2
        (mkCollider trivialModel invalidConfig 0).2 =
      some ([], (mkCollider trivialModel invalidConfig 0).2) :=
  ⟨by decide,
    (collider_ctor_no_validation trivialModel invalidConfig 0 2).2.2
      (by decide)⟩

/-- C7 counterexample: constructing the collider from a configuration with
`bmin = 5` above the derived `bmax = 1` and event count `-3` does not fail —
the invalid values are stored verbatim and the whole run completes
normally (with an empty output sequence), so construction-time rejection
does not happen. -/
theorem collider_ctor_accepts_invalid_config :
    (mkCollider trivialModel invalidConfig 0).1.bmin = 5 ∧
    (mkCollider trivialModel invalidConfig 0).1.bmax = 1 ∧
    (mkCollider trivialModel invalidConfig 0).1.nevents = -3 ∧
    fullRun trivialModel invalidConfig 1 0 = some [] := by
  refine ⟨rfl, ?_, rfl, ?_⟩
  · show determine_bmax invalidConfig.bmaxCfg 0 0 0 = 1
    rw [show invalidConfig.bmaxCfg = 1 from rfl, determine_bmax,
      if_neg (by norm_num)]
  · rfl

/-- C8: the constructor draws the nucleus deformation parameters `gamma`
and `beta2` from the engine in its initializer list and only applies the
configured seed afterwards, so two runs with identical configuration and
an explicit positive seed, but different startup engine states, can emit
different `(b, ncoll, trials)` sequences — full-run determinism fails. -/
theorem seeded_runs_differ_across_startup_states :
    seededConfig.seed > 0 ∧
    fullRun gammaSensitiveModel seededConfig 1 0 ≠
      fullRun gammaSensitiveModel seededConfig 1 10 := by
  constructor
  · decide
  · have h0 : fullRun gammaSensitiveModel seededConfig 1 0 =
        some [(sample_b 0 0 0, 2, 1)] := by
      norm_num [fullRun, mkCollider, gammaSensitiveModel, seededConfig,
        runEvents, runEventsAux, sampleCollisionRun, pairLoop, pairStep,
        determine_bmax, determine_asym, List.replicate]
    have h10 : fullRun gammaSensitiveModel seededConfig 1 10 =
        some [(sample_b 0 0 0, 4, 1)] := by
      norm_num [fullRun, mkCollider, gammaSensitiveModel, seededConfig,
        runEvents, runEventsAux, sampleCollisionRun, pairLoop, pairStep,
        determine_bmax, determine_asym, List.replicate]
    rw [h0, h10]
    norm_num

